import Mathlib

/-!
Verification of the `SvelteSocket` managed reconnecting socket client
(source: `src/lib/SvelteSocket.svelte`, the Svelte-module class
`SvelteSocket`).  The class is shallowly embedded as a pure state machine:

* fields of the class become fields of `ClientState`;
* each method becomes a pure function on `ClientState` (TypeScript
  `throw` becomes an `Option SocketError` component returned alongside
  the post-state, because mutations performed before a throw would
  persist on `this` — in this code none do, which is exactly what the
  error-handling claims assert);
* the browser `WebSocket` collaborator is modelled by a `Socket` handle
  carrying its `readyState`, the list of externally registered listeners
  (DOM `addEventListener` dedupes an identical (type, callback) pair;
  `removeEventListener` removes the matching pair) and the payloads
  forwarded to the transport;
* asynchronous transport events (`open`, `close`, `message`, `error`),
  the `setTimeout` reconnect timer and the user-facing methods are the
  labels of a small-step relation `Step`; `Reachable` closes the initial
  state produced by the constructor under `Step`.

Message payloads are opaque tokens (the class never inspects them), so
they are modelled as `Nat` identifiers; timestamps (`Date.now()`) are
`Nat` parameters supplied by the environment.
-/

namespace SvelteSocket

/-- The four `WebSocket.readyState` constants. -/
inductive ReadyState where
  | CONNECTING
  | OPEN
  | CLOSING
  | CLOSED
deriving DecidableEq

/-- The four event kinds of the `WebSocketEventMap` (`message`, `close`,
`open`, `error`). -/
inductive EventKind where
  | message
  | close
  | openE
  | error
deriving DecidableEq

/-- Message payloads are opaque tokens: the class stores and forwards
them but never inspects them. -/
abbrev Msg := Nat

/-- An entry of `sentMessages`: `{ message, timestamp: Date.now() }`. -/
structure SentEntry where
  message : Msg
  timestamp : Nat
deriving DecidableEq

/-- An entry of `receivedMessages`: `{ message: messageEvent }`, the raw
message event (modelled by its payload). -/
structure ReceivedEntry where
  message : Msg
deriving DecidableEq

/-- A browser `WebSocket` handle: its identity, its `readyState`, the
externally registered `(kind, callback)` pairs and the payloads passed
to `send`. -/
structure Socket where
  id : Nat
  readyState : ReadyState
  extListeners : List (EventKind × Nat)
  transportSent : List Msg
deriving DecidableEq

/-- The `ReconnectOptions` interface: `enabled`, `delay`, `maxAttempts`. -/
structure ReconnectOptions where
  enabled : Bool
  delay : Nat
  maxAttempts : Nat
deriving DecidableEq

/-- The constructor arguments (`SocketConstructorArgs`); `none` means the
caller omitted the optional field. -/
structure SocketConstructorArgs where
  url : List Char
  debug : Option Bool
  reconnectOptions : Option ReconnectOptions
  maxMessageHistory : Option Nat
deriving DecidableEq

/-- The immutable per-instance configuration, as stored by the
constructor after defaulting (`debug = false`,
`maxMessageHistory = 50`). -/
structure Config where
  url : List Char
  reconnectOptions : Option ReconnectOptions
  maxMessageHistory : Nat
  debug : Bool
deriving DecidableEq

/-- The mutable fields of a `SvelteSocket` instance, plus bookkeeping for
transport events still in flight: `supersededPending` counts sockets
closed directly by `createSocket` whose `close` event has not fired yet,
`detachedPending` the same for sockets closed by `removeSocket`, and
`nextId` supplies fresh handle identities. -/
structure ClientState where
  socket : Option Socket
  connectionStatus : ReadyState
  sentMessages : List SentEntry
  receivedMessages : List ReceivedEntry
  reconnectAttempts : Nat
  pendingTimer : Bool
  intentionalClose : Bool
  supersededPending : Nat
  detachedPending : Nat
  nextId : Nat
deriving DecidableEq

/-- The operational error taxonomy: `sendMessage` / listener methods
throw `Error` objects whose messages distinguish the two cases. -/
inductive SocketError where
  | notConnected
  | invalidState
deriving DecidableEq

/-- The construction-time error: `Invalid WebSocket URL`. -/
inductive ConfigError where
  | invalidUrl (url : List Char)
deriving DecidableEq

/-- Primitive transport calls issued by `createSocket`, in call order:
`closeOld` is `this.socket.close()` on the existing handle, `connectNew`
is `new WebSocket(url)`. -/
inductive TransportCall where
  | closeOld (id : Nat)
  | connectNew (id : Nat)
deriving DecidableEq

/-! ## History buffers

`sendMessage` and the internal `message` handler both perform
`unshift(entry)` followed by
`if (maxMessageHistory > 0 && length > maxMessageHistory)
   slice(0, maxMessageHistory)`. -/

/-- One history insertion: unshift at the front, then truncate the tail
to `cap` entries when `cap > 0` and the buffer overflowed. -/
def record (cap : Nat) (e : α) (buf : List α) : List α :=
  if 0 < cap ∧ cap < (e :: buf).length then (e :: buf).take cap else e :: buf

/-- Iterated insertion of `xs` (in chronological order) into an
initially empty buffer. -/
def recordMany (cap : Nat) (xs : List α) : List α :=
  xs.foldl (fun b e => record cap e b) []

theorem record_head (cap : Nat) (e : α) (b : List α) :
    (record cap e b).head? = some e := by
  unfold record
  split
  · rename_i h
    obtain ⟨hpos, -⟩ := h
    cases cap with
    | zero => omega
    | succ k => simp
  · rfl

theorem record_take (k : Nat) (y : α) (r : List α) :
    record (k + 1) y (r.take (k + 1)) = (y :: r).take (k + 1) := by
  by_cases hr : r.length ≤ k
  · have h1 : r.take (k + 1) = r := List.take_of_length_le (by omega)
    have h2 : r.take k = r := List.take_of_length_le hr
    rw [h1]
    unfold record
    rw [if_neg (by simp; omega), List.take_succ_cons, h2]
  · have hlen : (r.take (k + 1)).length = k + 1 := by
      rw [List.length_take]; omega
    unfold record
    rw [if_pos (by simp [hlen]), List.take_succ_cons, List.take_succ_cons,
      List.take_take]
    congr 2
    omega

theorem recordMany_append_singleton (cap : Nat) (xs : List α) (y : α) :
    recordMany cap (xs ++ [y]) = record cap y (recordMany cap xs) := by
  simp [recordMany, List.foldl_append]

theorem recordMany_zero (xs : List α) : recordMany 0 xs = xs.reverse := by
  induction xs using List.reverseRecOn with
  | nil => rfl
  | append_singleton xs y ih =>
      rw [recordMany_append_singleton, ih]
      simp [record]

theorem recordMany_pos (cap : Nat) (hcap : 0 < cap) (xs : List α) :
    recordMany cap xs = xs.reverse.take cap := by
  obtain ⟨k, rfl⟩ := Nat.exists_eq_succ_of_ne_zero (Nat.pos_iff_ne_zero.mp hcap)
  induction xs using List.reverseRecOn with
  | nil => simp [recordMany]
  | append_singleton xs y ih =>
      rw [recordMany_append_singleton, ih, List.reverse_append]
      simp only [List.reverse_cons, List.reverse_nil, List.nil_append,
        List.singleton_append]
      exact record_take k y xs.reverse

theorem recordMany_length (cap : Nat) (xs : List α) :
    (recordMany cap xs).length =
      if cap = 0 then xs.length else min xs.length cap := by
  rcases Nat.eq_zero_or_pos cap with h | h
  · subst h; simp [recordMany_zero]
  · rw [recordMany_pos cap h, if_neg (by omega)]
    rw [List.length_take, List.length_reverse]
    omega

/-! ## URL validation

The constructor rejects a url unless
`url.startsWith('ws://') || url.startsWith('wss://')`. -/

/-- `pat` is a leading pattern of `s` (the `String.startsWith` check on
character lists). -/
def headMatches : List Char → List Char → Bool
  | [], _ => true
  | _ :: _, [] => false
  | p :: ps, c :: cs => p == c && headMatches ps cs

/-- The `ws://` scheme literal. -/
def schemeWs : List Char := ['w', 's', ':', '/', '/']

/-- The `wss://` scheme literal. -/
def schemeWss : List Char := ['w', 's', 's', ':', '/', '/']

/-- The constructor's url validation condition. -/
def urlValid (url : List Char) : Bool :=
  headMatches schemeWs url || headMatches schemeWss url

/-! ## Methods and internal handlers -/

/-- `attemptReconnect`: bail out on an intentional close; bail out when
reconnection is disabled (`!this.reconnectOptions?.enabled`) or the
attempt counter has reached `maxAttempts`; otherwise increment the
counter and schedule `createSocket` via `setTimeout`. -/
def attemptReconnect (cfg : Config) (s : ClientState) : ClientState :=
  if s.intentionalClose then s
  else
    match cfg.reconnectOptions with
    | none => s
    | some ro =>
        if ro.enabled = false ∨ ro.maxAttempts ≤ s.reconnectAttempts then s
        else { s with reconnectAttempts := s.reconnectAttempts + 1,
                      pendingTimer := true }

/-- A freshly constructed `WebSocket` handle (`readyState` starts at
`CONNECTING`, no external listeners, nothing sent). -/
def freshSocket (id : Nat) : Socket :=
  { id := id, readyState := ReadyState.CONNECTING, extListeners := [],
    transportSent := [] }

/-- `createSocket`: reset `intentionalClose`; if a socket already exists
close it directly (without `removeSocket`); set `connectionStatus` to
`CONNECTING` and create the new `WebSocket`.  The second component lists
the transport calls in the order the method issues them (close of the
old handle strictly before creation of the new one).  A directly closed
handle whose `close` event has not fired yet is counted in
`supersededPending`; closing an already-`CLOSED` handle produces no
event. -/
def createSocketCalls (s : ClientState) : ClientState × List TransportCall :=
  let s1 := { s with intentionalClose := false }
  match s1.socket with
  | some old =>
      let s2 := { s1 with supersededPending :=
        s1.supersededPending +
          (if old.readyState = ReadyState.CLOSED then 0 else 1) }
      ({ s2 with connectionStatus := ReadyState.CONNECTING,
                 socket := some (freshSocket s2.nextId),
                 nextId := s2.nextId + 1 },
       [TransportCall.closeOld old.id, TransportCall.connectNew s2.nextId])
  | none =>
      ({ s1 with connectionStatus := ReadyState.CONNECTING,
                 socket := some (freshSocket s1.nextId),
                 nextId := s1.nextId + 1 },
       [TransportCall.connectNew s1.nextId])

/-- `createSocket` without the call trace. -/
def createSocket (s : ClientState) : ClientState := (createSocketCalls s).1

/-- The internal `open` handler: the transport has moved to `OPEN`;
set `connectionStatus := OPEN`, reset `reconnectAttempts` to 0 and
`clearTimeout` any pending reconnect. -/
def handleOpen (s : ClientState) : ClientState :=
  { s with connectionStatus := ReadyState.OPEN,
           reconnectAttempts := 0,
           pendingTimer := false,
           socket := s.socket.map fun sock =>
             { sock with readyState := ReadyState.OPEN } }

/-- The internal `close` handler on the current socket: the transport has
moved to `CLOSED`; set `connectionStatus := CLOSED`, invoke the user
callback, then consult `attemptReconnect`. -/
def handleClose (cfg : Config) (s : ClientState) : ClientState :=
  attemptReconnect cfg
    { s with connectionStatus := ReadyState.CLOSED,
             socket := s.socket.map fun sock =>
               { sock with readyState := ReadyState.CLOSED } }

/-- The internal `message` handler: unshift the event into
`receivedMessages` and trim to `maxMessageHistory`. -/
def handleMessage (cfg : Config) (m : Msg) (s : ClientState) : ClientState :=
  { s with receivedMessages :=
      record cfg.maxMessageHistory ⟨m⟩ s.receivedMessages }

/-- The `close` handler body as run for a socket that is no longer the
current one (its listeners stay attached to the old `WebSocket`
object). -/
def orphanCloseBody (cfg : Config) (s : ClientState) : ClientState :=
  attemptReconnect cfg { s with connectionStatus := ReadyState.CLOSED }

/-- Delivery of the pending `close` event of a socket superseded by
`createSocket`. -/
def handleSupersededClose (cfg : Config) (s : ClientState) : ClientState :=
  orphanCloseBody cfg { s with supersededPending := s.supersededPending - 1 }

/-- Delivery of the pending `close` event of a socket detached by
`removeSocket`. -/
def handleDetachedClose (cfg : Config) (s : ClientState) : ClientState :=
  orphanCloseBody cfg { s with detachedPending := s.detachedPending - 1 }

/-- The scheduled reconnect timer fires: the deferred
`createSocket(this.url)` call runs and the timer is spent. -/
def timerFire (s : ClientState) : ClientState :=
  createSocket { s with pendingTimer := false }

/-- `removeSocket`: set `intentionalClose`, `clearTimeout` any pending
reconnect, and if a socket exists walk `connectionStatus` through
`CLOSING` to `CLOSED`, close and release the handle and clear both
histories; always reset `reconnectAttempts`.  The second component is
the sequence of `connectionStatus` writes the method performs.  A handle
closed here while not yet `CLOSED` still delivers its `close` event
later (`detachedPending`). -/
def removeSocketWrites (s : ClientState) : ClientState × List ReadyState :=
  let s1 := { s with intentionalClose := true, pendingTimer := false }
  match s1.socket with
  | some sock =>
      ({ s1 with connectionStatus := ReadyState.CLOSED,
                 socket := none,
                 sentMessages := [],
                 receivedMessages := [],
                 detachedPending := s1.detachedPending +
                   (if sock.readyState = ReadyState.CLOSED then 0 else 1),
                 reconnectAttempts := 0 },
       [ReadyState.CLOSING, ReadyState.CLOSED])
  | none => ({ s1 with reconnectAttempts := 0 }, [])

/-- `removeSocket` without the status-write trace. -/
def removeSocket (s : ClientState) : ClientState := (removeSocketWrites s).1

/-- `sendMessage`: throw when no socket exists; throw when the socket's
`readyState` is not `OPEN`; otherwise forward the payload to the
transport, unshift `{ message, timestamp: Date.now() }` into
`sentMessages` and trim to `maxMessageHistory`. -/
def sendMessage (cfg : Config) (m : Msg) (now : Nat) (s : ClientState) :
    Option SocketError × ClientState :=
  match s.socket with
  | none => (some SocketError.notConnected, s)
  | some sock =>
      if sock.readyState = ReadyState.OPEN then
        let sock2 := { sock with transportSent := sock.transportSent ++ [m] }
        (none,
         { s with
             socket := some sock2,
             sentMessages :=
               record cfg.maxMessageHistory ⟨m, now⟩ s.sentMessages })
      else (some SocketError.invalidState, s)

/-- `addEventListener`: throw when no socket exists; otherwise register
the callback on the `WebSocket` (DOM semantics: an identical
`(kind, callback)` registration is ignored). -/
def addEventListener (k : EventKind) (c : Nat) (s : ClientState) :
    Option SocketError × ClientState :=
  match s.socket with
  | none => (some SocketError.notConnected, s)
  | some sock =>
      let sock2 := { sock with
        extListeners :=
          if (k, c) ∈ sock.extListeners then sock.extListeners
          else sock.extListeners ++ [(k, c)] }
      (none, { s with socket := some sock2 })

/-- `removeEventListener`: throw when no socket exists; otherwise
unregister on the `WebSocket` (DOM semantics: remove the matching
`(kind, callback)` pair, a no-op when none matches). -/
def removeEventListener (k : EventKind) (c : Nat) (s : ClientState) :
    Option SocketError × ClientState :=
  match s.socket with
  | none => (some SocketError.notConnected, s)
  | some sock =>
      let sock2 := { sock with extListeners := sock.extListeners.erase (k, c) }
      (none, { s with socket := some sock2 })

/-- `clearSentMessages`. -/
def clearSentMessages (s : ClientState) : ClientState :=
  { s with sentMessages := [] }

/-- `clearReceivedMessages`. -/
def clearReceivedMessages (s : ClientState) : ClientState :=
  { s with receivedMessages := [] }

/-- The field initializers of the class, before the constructor body
runs: no socket, `connectionStatus = CLOSED`, empty histories, zero
attempts, no timer, `intentionalClose = false`. -/
def initialState : ClientState :=
  { socket := none, connectionStatus := ReadyState.CLOSED,
    sentMessages := [], receivedMessages := [], reconnectAttempts := 0,
    pendingTimer := false, intentionalClose := false,
    supersededPending := 0, detachedPending := 0, nextId := 0 }

/-- The constructor: validate the url (throwing aborts construction, so
the error case yields no configuration, no state and no transport call);
otherwise store the options (defaulting `debug` to `false` and
`maxMessageHistory` to `50`) and run `createSocket(url)`. -/
def mkClient (args : SocketConstructorArgs) :
    Except ConfigError (Config × ClientState × List TransportCall) :=
  if urlValid args.url then
    let cfg : Config :=
      { url := args.url, reconnectOptions := args.reconnectOptions,
        maxMessageHistory := args.maxMessageHistory.getD 50,
        debug := args.debug.getD false }
    let p := createSocketCalls initialState
    Except.ok (cfg, p.1, p.2)
  else Except.error (ConfigError.invalidUrl args.url)

/-! ## The step relation -/

/-- Labels: the externally triggered transitions of one client — user
method calls, transport events on the current or an orphaned socket, and
the reconnect timer. -/
inductive Evt where
  | opened
  | closed
  | msg (m : Msg)
  | errored
  | supersededClosed
  | detachedClosed
  | timer
  | send (m : Msg) (now : Nat)
  | addL (k : EventKind) (c : Nat)
  | removeL (k : EventKind) (c : Nat)
  | clearSent
  | clearReceived
  | close
deriving DecidableEq

/-- Small-step relation of one client under a fixed configuration.
Transport `open` fires only for a `CONNECTING` socket, `close` fires at
most once per socket, `message` only while `OPEN`; the `error` handler
only invokes the user callback.  User methods may be called in any
state. -/
inductive Step (cfg : Config) : ClientState → Evt → ClientState → Prop where
  | opened {s sock} : s.socket = some sock →
      sock.readyState = ReadyState.CONNECTING →
      Step cfg s Evt.opened (handleOpen s)
  | closed {s sock} : s.socket = some sock →
      sock.readyState ≠ ReadyState.CLOSED →
      Step cfg s Evt.closed (handleClose cfg s)
  | msg {s sock m} : s.socket = some sock →
      sock.readyState = ReadyState.OPEN →
      Step cfg s (Evt.msg m) (handleMessage cfg m s)
  | errored {s sock} : s.socket = some sock →
      Step cfg s Evt.errored s
  | supersededClosed {s} : 0 < s.supersededPending →
      Step cfg s Evt.supersededClosed (handleSupersededClose cfg s)
  | detachedClosed {s} : 0 < s.detachedPending →
      Step cfg s Evt.detachedClosed (handleDetachedClose cfg s)
  | timer {s} : s.pendingTimer = true →
      Step cfg s Evt.timer (timerFire s)
  | send {s m now} : Step cfg s (Evt.send m now) (sendMessage cfg m now s).2
  | addL {s k c} : Step cfg s (Evt.addL k c) (addEventListener k c s).2
  | removeL {s k c} : Step cfg s (Evt.removeL k c) (removeEventListener k c s).2
  | clearS {s} : Step cfg s Evt.clearSent (clearSentMessages s)
  | clearR {s} : Step cfg s Evt.clearReceived (clearReceivedMessages s)
  | close {s} : Step cfg s Evt.close (removeSocket s)

/-- States reachable by some client constructed with this
configuration. -/
inductive Reachable (cfg : Config) : ClientState → Prop where
  | init {args s calls} :
      mkClient args = Except.ok (cfg, s, calls) → Reachable cfg s
  | step {s e t} : Reachable cfg s → Step cfg s e t → Reachable cfg t

/-- Zero or more steps. -/
def StepStar (cfg : Config) : ClientState → ClientState → Prop :=
  Relation.ReflTransGen (fun a b => ∃ e, Step cfg a e b)

/-- Reconnection is configured off: options absent or `enabled: false`. -/
def ReconnectDisabled (cfg : Config) : Prop :=
  ∀ ro, cfg.reconnectOptions = some ro → ro.enabled = false

/-! ## Basic lemmas about the operations -/

theorem attemptReconnect_eq_or (cfg : Config) (s : ClientState) :
    attemptReconnect cfg s = s ∨
      (s.intentionalClose = false ∧
        ∃ ro, cfg.reconnectOptions = some ro ∧ ro.enabled = true ∧
          s.reconnectAttempts < ro.maxAttempts ∧
          attemptReconnect cfg s =
            { s with reconnectAttempts := s.reconnectAttempts + 1,
                     pendingTimer := true }) := by
  unfold attemptReconnect
  cases hic : s.intentionalClose with
  | true => left; simp
  | false =>
      rw [if_neg (by simp)]
      cases hro : cfg.reconnectOptions with
      | none => left; rfl
      | some ro =>
          dsimp only
          by_cases hgate : ro.enabled = false ∨ ro.maxAttempts ≤ s.reconnectAttempts
          · left; rw [if_pos hgate]
          · right
            rw [if_neg hgate]
            push_neg at hgate
            obtain ⟨hen, hlt⟩ := hgate
            refine ⟨rfl, ro, rfl, ?_, by omega, rfl⟩
            cases h : ro.enabled
            · exact absurd h hen
            · rfl

theorem attemptReconnect_of_intentional {cfg : Config} {s : ClientState}
    (h : s.intentionalClose = true) : attemptReconnect cfg s = s := by
  simp [attemptReconnect, h]

theorem attemptReconnect_of_disabled {cfg : Config} {s : ClientState}
    (h : ReconnectDisabled cfg) : attemptReconnect cfg s = s := by
  unfold attemptReconnect
  split
  · rfl
  cases hro : cfg.reconnectOptions with
  | none => rfl
  | some ro => dsimp only; rw [if_pos (Or.inl (h ro hro))]

@[simp] theorem attemptReconnect_socket (cfg : Config) (s : ClientState) :
    (attemptReconnect cfg s).socket = s.socket := by
  rcases attemptReconnect_eq_or cfg s with h | ⟨-, ro, -, -, -, h⟩ <;> rw [h]

@[simp] theorem attemptReconnect_connectionStatus (cfg : Config)
    (s : ClientState) :
    (attemptReconnect cfg s).connectionStatus = s.connectionStatus := by
  rcases attemptReconnect_eq_or cfg s with h | ⟨-, ro, -, -, -, h⟩ <;> rw [h]

@[simp] theorem attemptReconnect_sentMessages (cfg : Config) (s : ClientState) :
    (attemptReconnect cfg s).sentMessages = s.sentMessages := by
  rcases attemptReconnect_eq_or cfg s with h | ⟨-, ro, -, -, -, h⟩ <;> rw [h]

@[simp] theorem attemptReconnect_receivedMessages (cfg : Config)
    (s : ClientState) :
    (attemptReconnect cfg s).receivedMessages = s.receivedMessages := by
  rcases attemptReconnect_eq_or cfg s with h | ⟨-, ro, -, -, -, h⟩ <;> rw [h]

@[simp] theorem attemptReconnect_intentionalClose (cfg : Config)
    (s : ClientState) :
    (attemptReconnect cfg s).intentionalClose = s.intentionalClose := by
  rcases attemptReconnect_eq_or cfg s with h | ⟨-, ro, -, -, -, h⟩ <;> rw [h]

@[simp] theorem attemptReconnect_supersededPending (cfg : Config)
    (s : ClientState) :
    (attemptReconnect cfg s).supersededPending = s.supersededPending := by
  rcases attemptReconnect_eq_or cfg s with h | ⟨-, ro, -, -, -, h⟩ <;> rw [h]

@[simp] theorem attemptReconnect_detachedPending (cfg : Config)
    (s : ClientState) :
    (attemptReconnect cfg s).detachedPending = s.detachedPending := by
  rcases attemptReconnect_eq_or cfg s with h | ⟨-, ro, -, -, -, h⟩ <;> rw [h]

@[simp] theorem attemptReconnect_nextId (cfg : Config) (s : ClientState) :
    (attemptReconnect cfg s).nextId = s.nextId := by
  rcases attemptReconnect_eq_or cfg s with h | ⟨-, ro, -, -, -, h⟩ <;> rw [h]

theorem nodup_append_singleton {α : Type u_1} {l : List α} {a : α}
    (h : l.Nodup) (ha : a ∉ l) : (l ++ [a]).Nodup := by
  rw [List.nodup_append]
  refine ⟨h, List.nodup_singleton a, ?_⟩
  intro x hx hmem
  rw [List.mem_singleton] at hmem
  subst hmem
  exact ha hx

/-! ## The reachability invariant -/

/-- The inductive invariant of reachable client states: the attempt
counter never exceeds `maxAttempts`; with reconnection disabled no
attempt is ever counted and no timer scheduled; a socket superseded by
`createSocket` never has a pending `close` event (it was already
`CLOSED` when superseded); a pending reconnect timer implies the current
socket has already closed; once the handle is released everything is
cleared and the closure marked intentional; external listener
registrations are duplicate-free; `intentionalClose` only ever holds
with the handle released; a detached close event only exists after an
intentional close. -/
structure Inv (cfg : Config) (s : ClientState) : Prop where
  attempts_le : ∀ ro, cfg.reconnectOptions = some ro →
    s.reconnectAttempts ≤ ro.maxAttempts
  disabled_idle : ReconnectDisabled cfg →
    s.reconnectAttempts = 0 ∧ s.pendingTimer = false
  no_superseded : s.supersededPending = 0
  pending_closed : s.pendingTimer = true →
    ∃ old, s.socket = some old ∧ old.readyState = ReadyState.CLOSED
  no_socket_closed : s.socket = none →
    s.connectionStatus = ReadyState.CLOSED ∧ s.sentMessages = [] ∧
    s.receivedMessages = [] ∧ s.reconnectAttempts = 0 ∧
    s.pendingTimer = false ∧ s.intentionalClose = true
  listeners_nodup : ∀ sock, s.socket = some sock → sock.extListeners.Nodup
  intentional_no_socket : s.intentionalClose = true → s.socket = none
  detached_intentional : 0 < s.detachedPending → s.intentionalClose = true

theorem inv_init {args : SocketConstructorArgs} {cfg : Config}
    {s : ClientState} {calls : List TransportCall}
    (h : mkClient args = Except.ok (cfg, s, calls)) : Inv cfg s := by
  unfold mkClient at h
  split at h
  · simp only [Except.ok.injEq, Prod.mk.injEq] at h
    obtain ⟨-, hs, -⟩ := h
    subst hs
    constructor <;>
      simp [createSocketCalls, initialState, freshSocket, Nat.zero_le]
  · exact absurd h (by simp)

theorem attemptReconnect_attempts_le {cfg : Config} {s : ClientState}
    {ro : ReconnectOptions} (hro : cfg.reconnectOptions = some ro)
    (h : s.reconnectAttempts ≤ ro.maxAttempts) :
    (attemptReconnect cfg s).reconnectAttempts ≤ ro.maxAttempts := by
  rcases attemptReconnect_eq_or cfg s with heq | ⟨-, ro2, hro2, -, hlt, heq⟩
  · rw [heq]; exact h
  · rw [hro] at hro2
    injection hro2 with e
    subst e
    rw [heq]
    show s.reconnectAttempts + 1 ≤ ro.maxAttempts
    omega

theorem handleClose_eq {cfg : Config} {s : ClientState} {sock : Socket}
    (hs : s.socket = some sock) :
    handleClose cfg s = attemptReconnect cfg
      { s with connectionStatus := ReadyState.CLOSED,
               socket := some { sock with readyState := ReadyState.CLOSED } } := by
  unfold handleClose
  rw [hs]
  rfl

theorem removeSocketWrites_some {s : ClientState} {sock : Socket}
    (hs : s.socket = some sock) :
    removeSocketWrites s =
      ({ s with intentionalClose := true, pendingTimer := false,
                connectionStatus := ReadyState.CLOSED, socket := none,
                sentMessages := [], receivedMessages := [],
                detachedPending := s.detachedPending +
                  (if sock.readyState = ReadyState.CLOSED then 0 else 1),
                reconnectAttempts := 0 },
       [ReadyState.CLOSING, ReadyState.CLOSED]) := by
  unfold removeSocketWrites
  simp only [hs]

theorem removeSocketWrites_none {s : ClientState} (hs : s.socket = none) :
    removeSocketWrites s =
      ({ s with intentionalClose := true, pendingTimer := false,
                reconnectAttempts := 0 }, []) := by
  unfold removeSocketWrites
  simp only [hs]

theorem createSocketCalls_some {s : ClientState} {old : Socket}
    (hs : s.socket = some old) :
    createSocketCalls s =
      ({ s with intentionalClose := false,
                supersededPending := s.supersededPending +
                  (if old.readyState = ReadyState.CLOSED then 0 else 1),
                connectionStatus := ReadyState.CONNECTING,
                socket := some (freshSocket s.nextId),
                nextId := s.nextId + 1 },
       [TransportCall.closeOld old.id, TransportCall.connectNew s.nextId]) := by
  unfold createSocketCalls
  simp only [hs]

theorem createSocketCalls_none {s : ClientState} (hs : s.socket = none) :
    createSocketCalls s =
      ({ s with intentionalClose := false,
                connectionStatus := ReadyState.CONNECTING,
                socket := some (freshSocket s.nextId),
                nextId := s.nextId + 1 },
       [TransportCall.connectNew s.nextId]) := by
  unfold createSocketCalls
  simp only [hs]

theorem inv_handleOpen {cfg : Config} {s : ClientState} (hInv : Inv cfg s)
    {sock : Socket} (hs : s.socket = some sock) : Inv cfg (handleOpen s) := by
  have hsock : (handleOpen s).socket =
      some { sock with readyState := ReadyState.OPEN } := by
    simp [handleOpen, hs]
  constructor
  · intro ro _; exact Nat.zero_le _
  · intro _; exact ⟨rfl, rfl⟩
  · exact hInv.no_superseded
  · intro h; exact absurd h (by simp [handleOpen])
  · intro h; rw [hsock] at h; exact absurd h (by simp)
  · intro sock2 h2
    rw [hsock] at h2
    simp only [Option.some.injEq] at h2
    subst h2
    exact hInv.listeners_nodup sock hs
  · intro hic
    exact absurd (hInv.intentional_no_socket hic) (by simp [hs])
  · exact hInv.detached_intentional

theorem inv_attemptReconnect_socketClosed {cfg : Config} {s1 : ClientState}
    {sock : Socket} (hsock : s1.socket = some sock)
    (hclosed : sock.readyState = ReadyState.CLOSED)
    (hatt : ∀ ro, cfg.reconnectOptions = some ro →
      s1.reconnectAttempts ≤ ro.maxAttempts)
    (hdis : ReconnectDisabled cfg →
      s1.reconnectAttempts = 0 ∧ s1.pendingTimer = false)
    (hsup : s1.supersededPending = 0)
    (hnodup : sock.extListeners.Nodup)
    (hic : s1.intentionalClose = false)
    (hdet : s1.detachedPending = 0) :
    Inv cfg (attemptReconnect cfg s1) := by
  constructor
  · intro ro hro; exact attemptReconnect_attempts_le hro (hatt ro hro)
  · intro hd; rw [attemptReconnect_of_disabled hd]; exact hdis hd
  · rw [attemptReconnect_supersededPending]; exact hsup
  · intro _; exact ⟨sock, by rw [attemptReconnect_socket, hsock], hclosed⟩
  · intro h
    rw [attemptReconnect_socket, hsock] at h
    exact absurd h (by simp)
  · intro sock2 h2
    rw [attemptReconnect_socket, hsock] at h2
    simp only [Option.some.injEq] at h2
    subst h2
    exact hnodup
  · intro h
    rw [attemptReconnect_intentionalClose, hic] at h
    exact absurd h (by simp)
  · intro h
    rw [attemptReconnect_detachedPending, hdet] at h
    exact absurd h (by simp)

theorem inv_handleClose {cfg : Config} {s : ClientState} (hInv : Inv cfg s)
    {sock : Socket} (hs : s.socket = some sock) :
    Inv cfg (handleClose cfg s) := by
  have hd0 : s.detachedPending = 0 := by
    by_contra h
    have hic := hInv.detached_intentional (Nat.pos_of_ne_zero h)
    exact absurd (hInv.intentional_no_socket hic) (by simp [hs])
  have hic0 : s.intentionalClose = false := by
    cases h : s.intentionalClose
    · rfl
    · exact absurd (hInv.intentional_no_socket h) (by simp [hs])
  rw [handleClose_eq hs]
  exact inv_attemptReconnect_socketClosed rfl rfl
    (fun ro hro => hInv.attempts_le ro hro)
    (fun hd => hInv.disabled_idle hd)
    hInv.no_superseded
    (hInv.listeners_nodup sock hs)
    hic0
    hd0

theorem inv_handleMessage {cfg : Config} {s : ClientState} (hInv : Inv cfg s)
    {sock : Socket} (hs : s.socket = some sock) (m : Msg) :
    Inv cfg (handleMessage cfg m s) := by
  constructor
  · exact hInv.attempts_le
  · exact hInv.disabled_idle
  · exact hInv.no_superseded
  · exact hInv.pending_closed
  · intro h
    exact absurd (hs.symm.trans h) (by simp)
  · exact hInv.listeners_nodup
  · exact hInv.intentional_no_socket
  · exact hInv.detached_intentional

theorem inv_handleDetachedClose {cfg : Config} {s : ClientState}
    (hInv : Inv cfg s) (hd : 0 < s.detachedPending) :
    Inv cfg (handleDetachedClose cfg s) := by
  have hic : s.intentionalClose = true := hInv.detached_intentional hd
  have hnone : s.socket = none := hInv.intentional_no_socket hic
  obtain ⟨hconn, hsent, hrecv, hatt, hpend, -⟩ := hInv.no_socket_closed hnone
  unfold handleDetachedClose orphanCloseBody
  show Inv cfg (attemptReconnect cfg
    { s with detachedPending := s.detachedPending - 1,
             connectionStatus := ReadyState.CLOSED })
  rw [attemptReconnect_of_intentional
    (show ({ s with
               detachedPending := s.detachedPending - 1,
               connectionStatus := ReadyState.CLOSED } :
      ClientState).intentionalClose = true from hic)]
  constructor
  · intro ro _
    show s.reconnectAttempts ≤ ro.maxAttempts
    rw [hatt]
    exact Nat.zero_le _
  · intro _; exact ⟨hatt, hpend⟩
  · exact hInv.no_superseded
  · intro h; exact absurd (hpend.symm.trans h) (by simp)
  · intro _; exact ⟨rfl, hsent, hrecv, hatt, hpend, hic⟩
  · intro sock2 h2; exact absurd (hnone.symm.trans h2) (by simp)
  · intro _; exact hnone
  · intro _; exact hic

theorem inv_timerFire {cfg : Config} {s : ClientState} (hInv : Inv cfg s)
    (ht : s.pendingTimer = true) : Inv cfg (timerFire s) := by
  obtain ⟨old, hsock, hclosed⟩ := hInv.pending_closed ht
  have hd0 : s.detachedPending = 0 := by
    by_contra h
    have hic := hInv.detached_intentional (Nat.pos_of_ne_zero h)
    exact absurd (hInv.intentional_no_socket hic) (by simp [hsock])
  unfold timerFire createSocket
  rw [createSocketCalls_some (show ({ s with pendingTimer := false } :
    ClientState).socket = some old from hsock)]
  constructor
  · exact hInv.attempts_le
  · intro hdis; exact ⟨(hInv.disabled_idle hdis).1, rfl⟩
  · show s.supersededPending +
      (if old.readyState = ReadyState.CLOSED then 0 else 1) = 0
    rw [if_pos hclosed, hInv.no_superseded]
  · intro h; exact absurd h (by simp)
  · intro h; exact absurd h (by simp)
  · intro sock2 h2
    simp only [Option.some.injEq] at h2
    subst h2
    simp [freshSocket]
  · intro h; exact absurd h (by simp)
  · intro h
    have h2 : 0 < s.detachedPending := h
    rw [hd0] at h2
    exact absurd h2 (by simp)

theorem inv_sendMessage {cfg : Config} {s : ClientState} (hInv : Inv cfg s)
    (m : Msg) (now : Nat) : Inv cfg (sendMessage cfg m now s).2 := by
  unfold sendMessage
  cases hs : s.socket with
  | none => exact hInv
  | some sock =>
      dsimp only
      by_cases hrs : sock.readyState = ReadyState.OPEN
      · rw [if_pos hrs]
        constructor
        · exact hInv.attempts_le
        · exact hInv.disabled_idle
        · exact hInv.no_superseded
        · intro h
          obtain ⟨old, hold, holdc⟩ := hInv.pending_closed h
          rw [hs] at hold
          simp only [Option.some.injEq] at hold
          subst hold
          exact absurd hrs (by simp [holdc])
        · intro h; exact absurd h (by simp)
        · intro sock2 h2
          simp only [Option.some.injEq] at h2
          subst h2
          exact hInv.listeners_nodup sock hs
        · intro hic
          exact absurd (hInv.intentional_no_socket hic) (by simp [hs])
        · exact hInv.detached_intentional
      · rw [if_neg hrs]
        exact hInv

theorem inv_addEventListener {cfg : Config} {s : ClientState}
    (hInv : Inv cfg s) (k : EventKind) (c : Nat) :
    Inv cfg (addEventListener k c s).2 := by
  unfold addEventListener
  cases hs : s.socket with
  | none => exact hInv
  | some sock =>
      dsimp only
      constructor
      · exact hInv.attempts_le
      · exact hInv.disabled_idle
      · exact hInv.no_superseded
      · intro h
        obtain ⟨old, hold, holdc⟩ := hInv.pending_closed h
        rw [hs] at hold
        simp only [Option.some.injEq] at hold
        subst hold
        exact ⟨_, rfl, holdc⟩
      · intro h; exact absurd h (by simp)
      · intro sock2 h2
        simp only [Option.some.injEq] at h2
        subst h2
        have hn := hInv.listeners_nodup sock hs
        by_cases hmem : (k, c) ∈ sock.extListeners
        · simpa [hmem] using hn
        · simpa [hmem] using nodup_append_singleton hn hmem
      · intro hic
        exact absurd (hInv.intentional_no_socket hic) (by simp [hs])
      · exact hInv.detached_intentional

theorem inv_removeEventListener {cfg : Config} {s : ClientState}
    (hInv : Inv cfg s) (k : EventKind) (c : Nat) :
    Inv cfg (removeEventListener k c s).2 := by
  unfold removeEventListener
  cases hs : s.socket with
  | none => exact hInv
  | some sock =>
      dsimp only
      constructor
      · exact hInv.attempts_le
      · exact hInv.disabled_idle
      · exact hInv.no_superseded
      · intro h
        obtain ⟨old, hold, holdc⟩ := hInv.pending_closed h
        rw [hs] at hold
        simp only [Option.some.injEq] at hold
        subst hold
        exact ⟨_, rfl, holdc⟩
      · intro h; exact absurd h (by simp)
      · intro sock2 h2
        simp only [Option.some.injEq] at h2
        subst h2
        exact (hInv.listeners_nodup sock hs).erase _
      · intro hic
        exact absurd (hInv.intentional_no_socket hic) (by simp [hs])
      · exact hInv.detached_intentional

theorem inv_clearSent {cfg : Config} {s : ClientState} (hInv : Inv cfg s) :
    Inv cfg (clearSentMessages s) := by
  constructor
  · exact hInv.attempts_le
  · exact hInv.disabled_idle
  · exact hInv.no_superseded
  · exact hInv.pending_closed
  · intro h
    obtain ⟨h1, -, h3, h4, h5, h6⟩ := hInv.no_socket_closed h
    exact ⟨h1, rfl, h3, h4, h5, h6⟩
  · exact hInv.listeners_nodup
  · exact hInv.intentional_no_socket
  · exact hInv.detached_intentional

theorem inv_clearReceived {cfg : Config} {s : ClientState} (hInv : Inv cfg s) :
    Inv cfg (clearReceivedMessages s) := by
  constructor
  · exact hInv.attempts_le
  · exact hInv.disabled_idle
  · exact hInv.no_superseded
  · exact hInv.pending_closed
  · intro h
    obtain ⟨h1, h2, -, h4, h5, h6⟩ := hInv.no_socket_closed h
    exact ⟨h1, h2, rfl, h4, h5, h6⟩
  · exact hInv.listeners_nodup
  · exact hInv.intentional_no_socket
  · exact hInv.detached_intentional

theorem inv_removeSocket {cfg : Config} {s : ClientState} (hInv : Inv cfg s) :
    Inv cfg (removeSocket s) := by
  unfold removeSocket
  cases hs : s.socket with
  | some sock =>
      rw [removeSocketWrites_some hs]
      constructor
      · intro ro _; exact Nat.zero_le _
      · intro _; exact ⟨rfl, rfl⟩
      · exact hInv.no_superseded
      · intro h; exact absurd h (by simp)
      · intro _; exact ⟨rfl, rfl, rfl, rfl, rfl, rfl⟩
      · intro sock2 h2; exact absurd h2 (by simp)
      · intro _; rfl
      · intro _; rfl
  | none =>
      rw [removeSocketWrites_none hs]
      obtain ⟨h1, h2, h3, -, -, -⟩ := hInv.no_socket_closed hs
      constructor
      · intro ro _; exact Nat.zero_le _
      · intro _; exact ⟨rfl, rfl⟩
      · exact hInv.no_superseded
      · intro h; exact absurd h (by simp)
      · intro _; exact ⟨h1, h2, h3, rfl, rfl, rfl⟩
      · intro sock2 h2; exact absurd (hs.symm.trans h2) (by simp)
      · intro _; exact hs
      · intro _; rfl

theorem inv_step {cfg : Config} {s : ClientState} {e : Evt} {t : ClientState}
    (hInv : Inv cfg s) (hstep : Step cfg s e t) : Inv cfg t := by
  cases hstep with
  | opened hs hrs => exact inv_handleOpen hInv hs
  | closed hs hrs => exact inv_handleClose hInv hs
  | msg hs hrs => exact inv_handleMessage hInv hs _
  | errored hs => exact hInv
  | supersededClosed hpos =>
      exact absurd hpos (by simp [hInv.no_superseded])
  | detachedClosed hpos => exact inv_handleDetachedClose hInv hpos
  | timer ht => exact inv_timerFire hInv ht
  | send => exact inv_sendMessage hInv _ _
  | addL => exact inv_addEventListener hInv _ _
  | removeL => exact inv_removeEventListener hInv _ _
  | clearS => exact inv_clearSent hInv
  | clearR => exact inv_clearReceived hInv
  | close => exact inv_removeSocket hInv

theorem reachable_inv {cfg : Config} {s : ClientState}
    (h : Reachable cfg s) : Inv cfg s := by
  induction h with
  | init hmk => exact inv_init hmk
  | step _ hstep ih => exact inv_step ih hstep

/-! ## Characterizations of the user-facing methods -/

theorem sendMessage_none {cfg : Config} {m : Msg} {now : Nat}
    {s : ClientState} (hs : s.socket = none) :
    sendMessage cfg m now s = (some SocketError.notConnected, s) := by
  unfold sendMessage
  simp only [hs]

theorem sendMessage_some_notOpen {cfg : Config} {m : Msg} {now : Nat}
    {s : ClientState} {sock : Socket} (hs : s.socket = some sock)
    (h : sock.readyState ≠ ReadyState.OPEN) :
    sendMessage cfg m now s = (some SocketError.invalidState, s) := by
  unfold sendMessage
  simp only [hs]
  rw [if_neg h]

theorem sendMessage_some_open {cfg : Config} {m : Msg} {now : Nat}
    {s : ClientState} {sock : Socket} (hs : s.socket = some sock)
    (h : sock.readyState = ReadyState.OPEN) :
    sendMessage cfg m now s =
      (none,
       { s with
           socket := some { sock with
             transportSent := sock.transportSent ++ [m] },
           sentMessages :=
             record cfg.maxMessageHistory ⟨m, now⟩ s.sentMessages }) := by
  unfold sendMessage
  simp only [hs]
  rw [if_pos h]

theorem addEventListener_none {k : EventKind} {c : Nat} {s : ClientState}
    (hs : s.socket = none) :
    addEventListener k c s = (some SocketError.notConnected, s) := by
  unfold addEventListener
  simp only [hs]

theorem addEventListener_some {k : EventKind} {c : Nat} {s : ClientState}
    {sock : Socket} (hs : s.socket = some sock) :
    addEventListener k c s =
      (none,
       { s with socket := some { sock with
           extListeners :=
             if (k, c) ∈ sock.extListeners then sock.extListeners
             else sock.extListeners ++ [(k, c)] } }) := by
  unfold addEventListener
  simp only [hs]

theorem removeEventListener_none {k : EventKind} {c : Nat} {s : ClientState}
    (hs : s.socket = none) :
    removeEventListener k c s = (some SocketError.notConnected, s) := by
  unfold removeEventListener
  simp only [hs]

theorem removeEventListener_some {k : EventKind} {c : Nat} {s : ClientState}
    {sock : Socket} (hs : s.socket = some sock) :
    removeEventListener k c s =
      (none,
       { s with socket := some { sock with
           extListeners := sock.extListeners.erase (k, c) } }) := by
  unfold removeEventListener
  simp only [hs]

/-! ## The closed-down region: life after `removeSocket` -/

/-- After an intentional close the client stays torn down: released
handle, no pending reconnect, zero attempts, `CLOSED` status, empty
histories. -/
def ClosedDown (s : ClientState) : Prop :=
  s.intentionalClose = true ∧ s.socket = none ∧ s.pendingTimer = false ∧
  s.reconnectAttempts = 0 ∧ s.connectionStatus = ReadyState.CLOSED ∧
  s.sentMessages = [] ∧ s.receivedMessages = []

theorem closedDown_removeSocket {cfg : Config} {s : ClientState}
    (hInv : Inv cfg s) : ClosedDown (removeSocket s) := by
  unfold removeSocket
  cases hs : s.socket with
  | some sock =>
      rw [removeSocketWrites_some hs]
      exact ⟨rfl, rfl, rfl, rfl, rfl, rfl, rfl⟩
  | none =>
      rw [removeSocketWrites_none hs]
      obtain ⟨h1, h2, h3, -, -, -⟩ := hInv.no_socket_closed hs
      exact ⟨rfl, hs, rfl, rfl, h1, h2, h3⟩

theorem closedDown_step {cfg : Config} {s : ClientState} {e : Evt}
    {t : ClientState} (hcd : ClosedDown s) (hstep : Step cfg s e t) :
    ClosedDown t := by
  obtain ⟨hic, hnone, hpt, hatt, hconn, hsent, hrecv⟩ := hcd
  cases hstep with
  | opened hs _ => exact absurd (hnone.symm.trans hs) (by simp)
  | closed hs _ => exact absurd (hnone.symm.trans hs) (by simp)
  | msg hs _ => exact absurd (hnone.symm.trans hs) (by simp)
  | errored hs => exact absurd (hnone.symm.trans hs) (by simp)
  | supersededClosed hpos =>
      unfold handleSupersededClose orphanCloseBody
      show ClosedDown (attemptReconnect cfg
        { s with supersededPending := s.supersededPending - 1,
                 connectionStatus := ReadyState.CLOSED })
      rw [attemptReconnect_of_intentional
        (show ({ s with
                   supersededPending := s.supersededPending - 1,
                   connectionStatus := ReadyState.CLOSED } :
          ClientState).intentionalClose = true from hic)]
      exact ⟨hic, hnone, hpt, hatt, rfl, hsent, hrecv⟩
  | detachedClosed hpos =>
      unfold handleDetachedClose orphanCloseBody
      show ClosedDown (attemptReconnect cfg
        { s with detachedPending := s.detachedPending - 1,
                 connectionStatus := ReadyState.CLOSED })
      rw [attemptReconnect_of_intentional
        (show ({ s with
                   detachedPending := s.detachedPending - 1,
                   connectionStatus := ReadyState.CLOSED } :
          ClientState).intentionalClose = true from hic)]
      exact ⟨hic, hnone, hpt, hatt, rfl, hsent, hrecv⟩
  | timer ht => exact absurd (hpt.symm.trans ht) (by simp)
  | send =>
      rw [sendMessage_none hnone]
      exact ⟨hic, hnone, hpt, hatt, hconn, hsent, hrecv⟩
  | addL =>
      rw [addEventListener_none hnone]
      exact ⟨hic, hnone, hpt, hatt, hconn, hsent, hrecv⟩
  | removeL =>
      rw [removeEventListener_none hnone]
      exact ⟨hic, hnone, hpt, hatt, hconn, hsent, hrecv⟩
  | clearS => exact ⟨hic, hnone, hpt, hatt, hconn, rfl, hrecv⟩
  | clearR => exact ⟨hic, hnone, hpt, hatt, hconn, hsent, rfl⟩
  | close =>
      unfold removeSocket
      rw [removeSocketWrites_none hnone]
      exact ⟨rfl, hnone, rfl, rfl, hconn, hsent, hrecv⟩

theorem closedDown_star {cfg : Config} {s t : ClientState}
    (h : ClosedDown s) (hst : StepStar cfg s t) : ClosedDown t := by
  induction hst with
  | refl => exact h
  | tail _ hstep ih =>
      obtain ⟨e, he⟩ := hstep
      exact closedDown_step ih he

/-! ## Further buffer lemmas -/

theorem record_length (cap : Nat) (e : α) (b : List α) :
    (record cap e b).length =
      if cap = 0 then b.length + 1 else min (b.length + 1) cap := by
  unfold record
  split
  · rename_i h
    rw [if_neg (by omega), List.length_take, List.length_cons]
    omega
  · rename_i h
    rw [List.length_cons]
    simp only [not_and, not_lt, List.length_cons] at h
    by_cases hc : cap = 0
    · rw [if_pos hc]
    · rw [if_neg hc]
      have := h (by omega)
      omega

theorem foldl_handleMessage_receivedMessages (cfg : Config) (ms : List Msg)
    (st : ClientState) :
    (ms.foldl (fun st2 m2 => handleMessage cfg m2 st2) st).receivedMessages =
      ms.foldl (fun b m2 => record cfg.maxMessageHistory ⟨m2⟩ b)
        st.receivedMessages := by
  induction ms generalizing st with
  | nil => rfl
  | cons m ms ih =>
      rw [List.foldl_cons, List.foldl_cons]
      exact ih (handleMessage cfg m st)

theorem foldl_sendMessage_sentMessages (cfg : Config) (ms : List Msg)
    (now : Nat) (st : ClientState) (sock : Socket)
    (hs : st.socket = some sock) (ho : sock.readyState = ReadyState.OPEN) :
    (ms.foldl (fun st2 m2 => (sendMessage cfg m2 now st2).2) st).sentMessages =
      ms.foldl (fun b m2 => record cfg.maxMessageHistory ⟨m2, now⟩ b)
        st.sentMessages := by
  induction ms generalizing st sock with
  | nil => rfl
  | cons m ms ih =>
      rw [List.foldl_cons, List.foldl_cons, sendMessage_some_open hs ho]
      exact ih _ _ rfl ho

theorem foldl_record_recv (cap : Nat) (ms : List Msg) :
    ms.foldl (fun b m2 => record cap (⟨m2⟩ : ReceivedEntry) b) [] =
      recordMany cap (ms.map ReceivedEntry.mk) := by
  simp [recordMany, List.foldl_map]

theorem foldl_record_sent (cap : Nat) (now : Nat) (ms : List Msg) :
    ms.foldl (fun b m2 => record cap (⟨m2, now⟩ : SentEntry) b) [] =
      recordMany cap (ms.map fun m2 => SentEntry.mk m2 now) := by
  simp [recordMany, List.foldl_map]

/-! ## Concrete fixtures -/

/-- A reconnect policy: `enabled, delay 100, maxAttempts 3`. -/
def roFix : ReconnectOptions :=
  { enabled := true, delay := 100, maxAttempts := 3 }

/-- Constructor arguments with a valid `ws://` url and `roFix`. -/
def argsFix : SocketConstructorArgs :=
  { url := schemeWs, debug := none, reconnectOptions := some roFix,
    maxMessageHistory := none }

/-- The configuration the constructor derives from `argsFix`. -/
def cfgFix : Config :=
  { url := schemeWs, reconnectOptions := some roFix,
    maxMessageHistory := 50, debug := false }

/-- The client state right after construction. -/
def sFix : ClientState :=
  { socket := some (freshSocket 0),
    connectionStatus := ReadyState.CONNECTING,
    sentMessages := [], receivedMessages := [], reconnectAttempts := 0,
    pendingTimer := false, intentionalClose := false,
    supersededPending := 0, detachedPending := 0, nextId := 1 }

theorem mkClient_argsFix :
    mkClient argsFix =
      Except.ok (cfgFix, sFix, [TransportCall.connectNew 0]) := rfl

theorem reachFix : Reachable cfgFix sFix :=
  Reachable.init mkClient_argsFix

/-- A policy with `maxAttempts 0` (already exhausted). -/
def roZero : ReconnectOptions :=
  { enabled := true, delay := 100, maxAttempts := 0 }

/-- Constructor arguments carrying `roZero`. -/
def argsZero : SocketConstructorArgs :=
  { url := schemeWs, debug := none, reconnectOptions := some roZero,
    maxMessageHistory := none }

/-- The configuration derived from `argsZero`. -/
def cfgZero : Config :=
  { url := schemeWs, reconnectOptions := some roZero,
    maxMessageHistory := 50, debug := false }

theorem mkClient_argsZero :
    mkClient argsZero =
      Except.ok (cfgZero, sFix, [TransportCall.connectNew 0]) := rfl

theorem reachZero : Reachable cfgZero sFix :=
  Reachable.init mkClient_argsZero

/-- The socket handle of `sFix` after one external listener
registration. -/
def sockAddFix : Socket :=
  { id := 0, readyState := ReadyState.CONNECTING,
    extListeners := [(EventKind.message, 5)], transportSent := [] }

/-- `sFix` after `addEventListener('message', callback 5)`. -/
def sAddFix : ClientState := { sFix with socket := some sockAddFix }

theorem reachAddFix : Reachable cfgFix sAddFix :=
  Reachable.step reachFix
    (show Step cfgFix sFix (Evt.addL EventKind.message 5)
      (addEventListener EventKind.message 5 sFix).2 from Step.addL)

/-- A handle in the `OPEN` state. -/
def sockOpenFix : Socket :=
  { id := 0, readyState := ReadyState.OPEN, extListeners := [],
    transportSent := [] }

/-- A client whose transport has opened. -/
def sOpenFix : ClientState :=
  { socket := some sockOpenFix, connectionStatus := ReadyState.OPEN,
    sentMessages := [], receivedMessages := [], reconnectAttempts := 0,
    pendingTimer := false, intentionalClose := false,
    supersededPending := 0, detachedPending := 0, nextId := 1 }

/-- Invalid-scheme constructor arguments. -/
def argsBad : SocketConstructorArgs :=
  { url := ['h', 't', 't', 'p', ':', '/', '/'], debug := none,
    reconnectOptions := none, maxMessageHistory := none }

theorem attemptReconnect_of_maxed {cfg : Config} {s : ClientState}
    {ro : ReconnectOptions} (hro : cfg.reconnectOptions = some ro)
    (h : ro.maxAttempts ≤ s.reconnectAttempts) :
    attemptReconnect cfg s = s := by
  unfold attemptReconnect
  split
  · rfl
  cases hro2 : cfg.reconnectOptions with
  | none => rfl
  | some ro2 =>
      dsimp only
      rw [hro2] at hro
      injection hro with e
      rw [if_pos (Or.inr (by rw [e]; exact h))]

/-! ## The claims -/

/-- C1: every history insertion (`unshift` then trim, as performed by
`sendMessage` and the `message` handler) places the new entry at
index 0; iterating N insertions from an empty buffer with capacity
`cap > 0` yields exactly the `cap` most recent entries in newest-first
order (`xs.reverse.take cap`), so the length is `min N cap` with the
oldest entries evicted from the tail; with `cap = 0` the buffer is never
truncated and the length is N. -/
theorem claim_C1_history (cap : Nat) (xs : List SentEntry) (e : SentEntry)
    (b : List SentEntry) :
    (record cap e b).head? = some e ∧
    (0 < cap → recordMany cap xs = xs.reverse.take cap ∧
      (recordMany cap xs).length = min xs.length cap) ∧
    (cap = 0 → recordMany cap xs = xs.reverse ∧
      (recordMany cap xs).length = xs.length) := by
  refine ⟨record_head cap e b, ?_, ?_⟩
  · intro h
    exact ⟨recordMany_pos cap h xs,
      by rw [recordMany_length, if_neg (by omega)]⟩
  · intro h
    subst h
    exact ⟨recordMany_zero xs, by rw [recordMany_length, if_pos rfl]⟩

theorem claim_C1_history_witness :
    0 < 3 ∧
    recordMany 3 [(⟨1, 1⟩ : SentEntry), ⟨2, 2⟩, ⟨3, 3⟩, ⟨4, 4⟩, ⟨5, 5⟩] =
      [⟨5, 5⟩, ⟨4, 4⟩, ⟨3, 3⟩] ∧
    recordMany 0 [(⟨1, 1⟩ : SentEntry), ⟨2, 2⟩, ⟨3, 3⟩, ⟨4, 4⟩, ⟨5, 5⟩] =
      [⟨5, 5⟩, ⟨4, 4⟩, ⟨3, 3⟩, ⟨2, 2⟩, ⟨1, 1⟩] := by
  refine ⟨by decide, ?_, ?_⟩
  · rw [((claim_C1_history 3 [⟨1, 1⟩, ⟨2, 2⟩, ⟨3, 3⟩, ⟨4, 4⟩, ⟨5, 5⟩]
      ⟨9, 9⟩ []).2.1 (by decide)).1]
    decide
  · rw [((claim_C1_history 0 [⟨1, 1⟩, ⟨2, 2⟩, ⟨3, 3⟩, ⟨4, 4⟩, ⟨5, 5⟩]
      ⟨9, 9⟩ []).2.2 rfl).1]
    decide

/-- C2: `sendMessage` fails with the not-connected error when no socket
handle exists, fails with the invalid-state error when the handle's
`readyState` is not `OPEN`, and when it is `OPEN` succeeds, forwards the
payload to the transport (`send`), and unshifts exactly one
`{ message, timestamp }` entry into the sent history (which then sits at
index 0), growing the buffer by exactly one entry up to the capacity
bound. -/
theorem claim_C2_send (cfg : Config) (m : Msg) (now : Nat)
    (s : ClientState) :
    (s.socket = none →
      sendMessage cfg m now s = (some SocketError.notConnected, s)) ∧
    (∀ sock, s.socket = some sock → sock.readyState ≠ ReadyState.OPEN →
      sendMessage cfg m now s = (some SocketError.invalidState, s)) ∧
    (∀ sock, s.socket = some sock → sock.readyState = ReadyState.OPEN →
      sendMessage cfg m now s =
        (none,
         { s with
             socket := some { sock with
               transportSent := sock.transportSent ++ [m] },
             sentMessages :=
               record cfg.maxMessageHistory ⟨m, now⟩ s.sentMessages }) ∧
      (sendMessage cfg m now s).2.sentMessages.head? = some ⟨m, now⟩ ∧
      (sendMessage cfg m now s).2.sentMessages.length =
        (if cfg.maxMessageHistory = 0 then s.sentMessages.length + 1
         else min (s.sentMessages.length + 1) cfg.maxMessageHistory)) := by
  refine ⟨fun h => sendMessage_none h,
    fun sock hs h => sendMessage_some_notOpen hs h,
    fun sock hs h => ⟨sendMessage_some_open hs h, ?_, ?_⟩⟩
  · rw [sendMessage_some_open hs h]
    exact record_head _ _ _
  · rw [sendMessage_some_open hs h]
    exact record_length _ _ _

theorem claim_C2_send_witness :
    sendMessage cfgFix 7 100 initialState =
      (some SocketError.notConnected, initialState) ∧
    sendMessage cfgFix 7 100 sFix = (some SocketError.invalidState, sFix) ∧
    (sendMessage cfgFix 7 100 sOpenFix).2.sentMessages.head? =
      some ⟨7, 100⟩ := by
  refine ⟨(claim_C2_send cfgFix 7 100 initialState).1 rfl,
    (claim_C2_send cfgFix 7 100 sFix).2.1 (freshSocket 0) rfl (by decide),
    ((claim_C2_send cfgFix 7 100 sOpenFix).2.2 sockOpenFix rfl rfl).2.1⟩

/-- C7: construction succeeds exactly when the url carries one of the
two recognized schemes (`ws://`, `wss://`, the `urlValid` check): on
success the constructor stores the defaulted options and immediately
creates the transport (state `CONNECTING`, one `connectNew` call); on
any other url it returns the configuration error and nothing else — no
configuration, no client state and no transport call are produced (the
`Except.error` carries only the offending url). -/
theorem claim_C7_construction (args : SocketConstructorArgs) :
    (urlValid args.url = true →
      mkClient args =
        Except.ok
          ({ url := args.url, reconnectOptions := args.reconnectOptions,
             maxMessageHistory := args.maxMessageHistory.getD 50,
             debug := args.debug.getD false },
           (createSocketCalls initialState).1,
           [TransportCall.connectNew 0]) ∧
      (createSocketCalls initialState).1.connectionStatus =
        ReadyState.CONNECTING ∧
      (createSocketCalls initialState).1.socket = some (freshSocket 0)) ∧
    (urlValid args.url = false →
      mkClient args = Except.error (ConfigError.invalidUrl args.url)) := by
  constructor
  · intro hv
    refine ⟨?_, rfl, rfl⟩
    unfold mkClient
    rw [if_pos hv]
    rfl
  · intro hv
    unfold mkClient
    rw [if_neg (by simp [hv])]

theorem claim_C7_construction_witness :
    urlValid argsFix.url = true ∧
    mkClient argsFix =
      Except.ok (cfgFix, sFix, [TransportCall.connectNew 0]) ∧
    urlValid argsBad.url = false ∧
    mkClient argsBad = Except.error (ConfigError.invalidUrl argsBad.url) := by
  refine ⟨by decide, ?_, by decide,
    (claim_C7_construction argsBad).2 (by decide)⟩
  rw [((claim_C7_construction argsFix).1 (by decide)).1]
  rfl

/-- C8: the operational errors are raised before any mutation: whenever
`sendMessage` returns an error (no transport handle, or handle not
`OPEN`) or `addEventListener` returns an error (no transport handle),
the client state — connection status, both histories, the attempt
counter, and the socket handle with its listener registrations — is
exactly the state before the call. -/
theorem claim_C8_errors_pure (cfg : Config) (m : Msg) (now : Nat)
    (s : ClientState) (k : EventKind) (c : Nat) :
    (∀ err, (sendMessage cfg m now s).1 = some err →
      (sendMessage cfg m now s).2 = s) ∧
    (∀ err, (addEventListener k c s).1 = some err →
      (addEventListener k c s).2 = s) := by
  constructor
  · intro err he
    cases hs : s.socket with
    | none => rw [sendMessage_none hs]
    | some sock =>
        by_cases hrs : sock.readyState = ReadyState.OPEN
        · rw [sendMessage_some_open hs hrs] at he
          exact absurd he (by simp)
        · rw [sendMessage_some_notOpen hs hrs]
  · intro err he
    cases hs : s.socket with
    | none => rw [addEventListener_none hs]
    | some sock =>
        rw [addEventListener_some hs] at he
        exact absurd he (by simp)

theorem claim_C8_errors_pure_witness :
    (sendMessage cfgFix 7 100 initialState).2 = initialState ∧
    (sendMessage cfgFix 7 100 sFix).2 = sFix ∧
    (addEventListener EventKind.message 5 initialState).2 =
      initialState :=
  ⟨(claim_C8_errors_pure cfgFix 7 100 initialState EventKind.message 5).1
      SocketError.notConnected rfl,
   (claim_C8_errors_pure cfgFix 7 100 sFix EventKind.message 5).1
      SocketError.invalidState rfl,
   (claim_C8_errors_pure cfgFix 7 100 initialState EventKind.message 5).2
      SocketError.notConnected rfl⟩

/-- C3: in every reachable state the reconnect attempt counter is at
most `maxAttempts`; from a reachable state whose counter already equals
`maxAttempts`, a further transport close leaves the counter at
`maxAttempts` and schedules no new reconnect timer (and, like every
handler here, returns normally — no error is surfaced); when
reconnection is disabled or unconfigured, the counter is 0 and no timer
is ever scheduled in any reachable state. -/
theorem claim_C3_reconnect_cap (cfg : Config) (s : ClientState)
    (h : Reachable cfg s) :
    (∀ ro, cfg.reconnectOptions = some ro →
      s.reconnectAttempts ≤ ro.maxAttempts ∧
      (s.reconnectAttempts = ro.maxAttempts → ∀ t,
        Step cfg s Evt.closed t →
        t.reconnectAttempts = ro.maxAttempts ∧
        t.pendingTimer = s.pendingTimer)) ∧
    (ReconnectDisabled cfg →
      s.reconnectAttempts = 0 ∧ s.pendingTimer = false) := by
  have hInv := reachable_inv h
  refine ⟨fun ro hro => ⟨hInv.attempts_le ro hro, ?_⟩, hInv.disabled_idle⟩
  intro hmax t hstep
  cases hstep with
  | closed hs hrs =>
      rename_i sock
      rw [handleClose_eq hs]
      rw [attemptReconnect_of_maxed hro
        (show ro.maxAttempts ≤
          ({ s with connectionStatus := ReadyState.CLOSED,
                    socket := some { sock with
                      readyState := ReadyState.CLOSED } } :
            ClientState).reconnectAttempts from by
          show ro.maxAttempts ≤ s.reconnectAttempts
          omega)]
      exact ⟨hmax, rfl⟩

theorem claim_C3_reconnect_cap_witness :
    sFix.reconnectAttempts ≤ roFix.maxAttempts ∧
    (handleClose cfgZero sFix).reconnectAttempts = roZero.maxAttempts ∧
    (handleClose cfgZero sFix).pendingTimer = false := by
  have h1 := ((claim_C3_reconnect_cap cfgFix sFix reachFix).1 roFix rfl).1
  have hstep : Step cfgZero sFix Evt.closed (handleClose cfgZero sFix) :=
    @Step.closed cfgZero sFix (freshSocket 0) rfl (by decide)
  have h2 := ((claim_C3_reconnect_cap cfgZero sFix reachZero).1 roZero
    rfl).2 rfl (handleClose cfgZero sFix) hstep
  exact ⟨h1, h2.1, h2.2⟩

/-- C4: a transport open event always resets the reconnect attempt
counter to 0 and clears any pending reconnect timer, whatever the number
of prior failed attempts. -/
theorem claim_C4_open_resets (cfg : Config) (s t : ClientState)
    (h : Step cfg s Evt.opened t) :
    t.reconnectAttempts = 0 ∧ t.pendingTimer = false := by
  cases h with
  | opened hs hrs => exact ⟨rfl, rfl⟩

theorem claim_C4_open_resets_witness :
    (handleOpen sFix).reconnectAttempts = 0 ∧
    (handleOpen sFix).pendingTimer = false :=
  claim_C4_open_resets cfgFix sFix (handleOpen sFix)
    (@Step.opened cfgFix sFix (freshSocket 0) rfl rfl)

/-- C5: from any reachable state, `removeSocket` marks the closure
intentional, clears any pending reconnect timer, leaves status `CLOSED`
(writing `CLOSING` then `CLOSED` whenever a handle existed), releases
the handle, empties both history buffers and zeroes the attempt
counter; and in every state reachable afterwards — under any further
events, so the cancelled reconnect never fires — the timer stays clear,
the counter stays 0, the status stays `CLOSED` and the handle stays
released. -/
theorem claim_C5_close (cfg : Config) (s : ClientState)
    (h : Reachable cfg s) :
    (removeSocket s).intentionalClose = true ∧
    (removeSocket s).pendingTimer = false ∧
    (removeSocket s).connectionStatus = ReadyState.CLOSED ∧
    (removeSocket s).socket = none ∧
    (removeSocket s).sentMessages = [] ∧
    (removeSocket s).receivedMessages = [] ∧
    (removeSocket s).reconnectAttempts = 0 ∧
    (∀ sock, s.socket = some sock →
      (removeSocketWrites s).2 = [ReadyState.CLOSING, ReadyState.CLOSED]) ∧
    (∀ u, StepStar cfg (removeSocket s) u →
      u.pendingTimer = false ∧ u.reconnectAttempts = 0 ∧
      u.connectionStatus = ReadyState.CLOSED ∧ u.socket = none) := by
  have hInv := reachable_inv h
  obtain ⟨c1, c2, c3, c4, c5, c6, c7⟩ := closedDown_removeSocket hInv
  refine ⟨c1, c3, c5, c2, c6, c7, c4, ?_, ?_⟩
  · intro sock hs
    rw [removeSocketWrites_some hs]
  · intro u hu
    obtain ⟨-, u2, u3, u4, u5, -, -⟩ :=
      closedDown_star (closedDown_removeSocket hInv) hu
    exact ⟨u3, u4, u5, u2⟩

theorem claim_C5_close_witness :
    (removeSocket sFix).connectionStatus = ReadyState.CLOSED ∧
    (removeSocket sFix).socket = none ∧
    (removeSocket sFix).reconnectAttempts = 0 ∧
    (removeSocketWrites sFix).2 = [ReadyState.CLOSING, ReadyState.CLOSED] := by
  obtain ⟨-, -, h3, h4, -, -, h7, h8, -⟩ :=
    claim_C5_close cfgFix sFix reachFix
  exact ⟨h3, h4, h7, h8 (freshSocket 0) rfl⟩

/-- C6: whenever `createSocket` runs against an existing handle it
issues the close of the old handle strictly before the creation of the
new one (the call trace); and in every reachable state no superseded
handle has a close event pending — the only internal caller that can
find an existing handle, the reconnect timer, always finds it already
`CLOSED`, so closing it emits no event — hence no `supersededClosed`
step is ever enabled and a timer-fired `createSocket` neither counts a
reconnect attempt nor leaves a superseded close behind: the reconnect
path is never taken on behalf of a superseded connection. -/
theorem claim_C6_supersede (cfg : Config) (s : ClientState)
    (h : Reachable cfg s) :
    (∀ old, s.socket = some old →
      (createSocketCalls s).2 =
        [TransportCall.closeOld old.id, TransportCall.connectNew s.nextId]) ∧
    s.supersededPending = 0 ∧
    (∀ t, ¬ Step cfg s Evt.supersededClosed t) ∧
    (s.pendingTimer = true →
      ∃ old, s.socket = some old ∧ old.readyState = ReadyState.CLOSED) ∧
    (∀ t, Step cfg s Evt.timer t →
      t.supersededPending = 0 ∧
      t.reconnectAttempts = s.reconnectAttempts) := by
  have hInv := reachable_inv h
  refine ⟨?_, hInv.no_superseded, ?_, hInv.pending_closed, ?_⟩
  · intro old hs
    rw [createSocketCalls_some hs]
  · intro t hstep
    cases hstep with
    | supersededClosed hpos =>
        rw [hInv.no_superseded] at hpos
        exact absurd hpos (by simp)
  · intro t hstep
    cases hstep with
    | timer ht =>
        obtain ⟨old, hsock, hclosed⟩ := hInv.pending_closed ht
        unfold timerFire createSocket
        rw [createSocketCalls_some
          (show ({ s with pendingTimer := false } : ClientState).socket =
            some old from hsock)]
        constructor
        · show s.supersededPending +
            (if old.readyState = ReadyState.CLOSED then 0 else 1) = 0
          rw [if_pos hclosed, hInv.no_superseded]
        · rfl

theorem claim_C6_supersede_witness :
    (createSocketCalls sFix).2 =
      [TransportCall.closeOld 0, TransportCall.connectNew 1] ∧
    sFix.supersededPending = 0 := by
  have h := claim_C6_supersede cfgFix sFix reachFix
  refine ⟨?_, h.2.1⟩
  rw [h.1 (freshSocket 0) rfl]
  rfl

/-- C9: on a client with an active connection, `removeEventListener`
never errors; it removes exactly the matching `(kind, callback)` pair
from the handle's registrations (DOM `removeEventListener`): when the
pair was never registered the call is a complete no-op, and otherwise
every other registered pair — in particular every other callback for
the same kind — remains registered while the removed pair does not
(registrations are duplicate-free in every reachable state). -/
theorem claim_C9_removeListener (cfg : Config) (s : ClientState)
    (h : Reachable cfg s) (sock : Socket) (hs : s.socket = some sock)
    (k : EventKind) (c : Nat) :
    (removeEventListener k c s).1 = none ∧
    (removeEventListener k c s).2 =
      { s with socket := some { sock with
          extListeners := sock.extListeners.erase (k, c) } } ∧
    ((k, c) ∉ sock.extListeners → (removeEventListener k c s).2 = s) ∧
    (∀ p, p ∈ sock.extListeners → p ≠ (k, c) →
      p ∈ sock.extListeners.erase (k, c)) ∧
    (k, c) ∉ sock.extListeners.erase (k, c) := by
  have hnd := (reachable_inv h).listeners_nodup sock hs
  refine ⟨?_, ?_, ?_, ?_, ?_⟩
  · rw [removeEventListener_some hs]
  · rw [removeEventListener_some hs]
  · intro hmem
    rw [removeEventListener_some hs, List.erase_of_not_mem hmem]
    have he : ({ sock with extListeners := sock.extListeners } : Socket) =
      sock := rfl
    rw [he, ← hs]
  · intro p hp hne
    exact (List.Nodup.mem_erase_iff hnd).mpr ⟨hne, hp⟩
  · intro hmem
    exact ((List.Nodup.mem_erase_iff hnd).mp hmem).1 rfl

theorem claim_C9_removeListener_witness :
    (removeEventListener EventKind.message 6 sAddFix).1 = none ∧
    (removeEventListener EventKind.message 6 sAddFix).2 = sAddFix ∧
    (EventKind.message, 5) ∉
      sockAddFix.extListeners.erase (EventKind.message, 5) := by
  have h6 := claim_C9_removeListener cfgFix sAddFix reachAddFix
    sockAddFix rfl EventKind.message 6
  have h5 := claim_C9_removeListener cfgFix sAddFix reachAddFix
    sockAddFix rfl EventKind.message 5
  exact ⟨h6.1, h6.2.2.1 (by decide), h5.2.2.2.2⟩

/-- C10: when `maxMessageHistory` is omitted at construction the
defaulted capacity is 50 — not unbounded: iterating more than 50
`message` events from the freshly constructed state leaves exactly 50
received-history entries, and iterating more than 50 successful
`sendMessage` calls after the transport opens leaves exactly 50
sent-history entries. -/
theorem claim_C10_default_capacity (args : SocketConstructorArgs)
    (cfg : Config) (s : ClientState) (calls : List TransportCall)
    (hdef : args.maxMessageHistory = none)
    (hok : mkClient args = Except.ok (cfg, s, calls)) :
    cfg.maxMessageHistory = 50 ∧
    (∀ ms : List Msg, 50 < ms.length →
      ((ms.foldl (fun st m2 => handleMessage cfg m2 st) s).receivedMessages).length
        = 50) ∧
    (∀ ms : List Msg, 50 < ms.length →
      ((ms.foldl (fun st m2 => (sendMessage cfg m2 0 st).2)
          (handleOpen s)).sentMessages).length = 50) := by
  have hparts : cfg.maxMessageHistory = args.maxMessageHistory.getD 50 ∧
      s = (createSocketCalls initialState).1 := by
    unfold mkClient at hok
    split at hok
    · simp only [Except.ok.injEq, Prod.mk.injEq] at hok
      obtain ⟨hcfg, hs, -⟩ := hok
      exact ⟨by rw [← hcfg], hs.symm⟩
    · exact absurd hok (by simp)
  obtain ⟨hcap0, hs⟩ := hparts
  have hcap : cfg.maxMessageHistory = 50 := by rw [hcap0, hdef]; rfl
  refine ⟨hcap, ?_, ?_⟩
  · intro ms hlen
    rw [foldl_handleMessage_receivedMessages]
    have hrecv : s.receivedMessages = [] := by rw [hs]; rfl
    rw [hrecv, foldl_record_recv, recordMany_length, hcap,
      if_neg (by omega), List.length_map]
    omega
  · intro ms hlen
    have hsock : (handleOpen s).socket =
        some { freshSocket 0 with readyState := ReadyState.OPEN } := by
      rw [hs]; rfl
    rw [foldl_sendMessage_sentMessages cfg ms 0 (handleOpen s) _ hsock rfl]
    have hsent : (handleOpen s).sentMessages = [] := by rw [hs]; rfl
    rw [hsent, foldl_record_sent, recordMany_length, hcap,
      if_neg (by omega), List.length_map]
    omega

theorem claim_C10_default_capacity_witness :
    argsFix.maxMessageHistory = none ∧
    cfgFix.maxMessageHistory = 50 ∧
    (((List.range 51).foldl (fun st m2 => handleMessage cfgFix m2 st)
        sFix).receivedMessages).length = 50 := by
  have h := claim_C10_default_capacity argsFix cfgFix sFix
    [TransportCall.connectNew 0] rfl mkClient_argsFix
  exact ⟨rfl, h.1, h.2.1 (List.range 51) (by simp)⟩

end SvelteSocket
